import Mathlib

/-!
# Verification of the Military Asset Management backend

Shallow embedding of the two server variants of the repository:

* `server.js` — Express server with in-memory `users` and `assets`
  collections, JWT bearer-token authentication (`authenticateToken`),
  an exact-match role gate (`authorizeRole`), signup/login handlers and
  four transaction-recording handlers (purchase, transfer, assignment,
  expenditure).
* the unnamed Mongoose variant — persistent asset-entity CRUD over a
  document store with schema validation (required + trim + status enum).

External collaborators (the `jsonwebtoken`, `bcryptjs` and `mongoose`
libraries) are modelled by explicit computable functions capturing their
documented contracts; everything else is translated line by line from the
source handlers.
-/

/-- Identity claims embedded in a session token.  `jwt.sign({ id, email,
role }, JWT_SECRET)` in `server.js` signs exactly these three fields. -/
structure Claims where
  id : Nat
  email : String
  role : String
deriving DecidableEq, Repr

/-- Model of a JWT bearer token.  A well-formed token records the claims
it encodes, the secret it was signed with and whether it has expired; a
`garbage` token is any string whose claims cannot be decoded.  This models
the `jsonwebtoken` library contract used by `server.js`. -/
inductive Token where
  | signed (claims : Claims) (signingKey : String) (expired : Bool)
  | garbage
deriving DecidableEq, Repr

/-- `jwt.sign(claims, secret)` (no `expiresIn` option in `server.js`):
produces a token carrying the claims, signed with the secret. -/
def jwtSign (c : Claims) (key : String) : Token :=
  .signed c key false

/-- `jwt.verify(token, secret, cb)`: succeeds with the embedded claims only
when the signature matches the secret and the token has not expired; fails
(calls back with `err`) on a wrong signature, an expired token, or an
undecodable token — without distinguishing the three cases. -/
def jwtVerify (t : Token) (key : String) : Option Claims :=
  match t with
  | .signed c k e => if k == key && !e then some c else none
  | .garbage => none

/-- `JWT_SECRET` constant of `server.js` (the insecure fallback default). -/
def jwtKey : String := "your_super_secret_jwt_key"

/-- The error taxonomy of the spec, as produced by the middleware chain. -/
inductive AuthError where
  | unauthenticated   -- 401, token absent
  | invalidToken      -- 403, token present but rejected
  | forbidden         -- 403, wrong role
deriving DecidableEq, Repr

/-- The `authenticateToken` middleware of `server.js` (lines 47–62): with
no bearer token it answers 401 without calling `next()`; with a token that
`jwt.verify` rejects it answers 403 `Invalid or expired token.`; otherwise
it stores the decoded claims in `req.user` and calls `next()`. -/
def authenticateToken (tok : Option Token) : Except AuthError Claims :=
  match tok with
  | none => .error .unauthenticated
  | some t =>
    match jwtVerify t jwtKey with
    | none => .error .invalidToken
    | some user => .ok user

/-- The `authorizeRole(requiredRole)` middleware of `server.js`
(lines 66–71): 403 Forbidden unless `req.user.role` equals the required
role exactly. -/
def authorizeRole (requiredRole : String) (user : Claims) : Except AuthError Unit :=
  if user.role != requiredRole then .error .forbidden else .ok ()

/-- A token-protected route: `authenticateToken` then the handler, exactly
the middleware chain `app.get(path, authenticateToken, handler)`. -/
def runProtected {α : Type} (tok : Option Token) (handler : Claims → α) :
    Except AuthError α :=
  match authenticateToken tok with
  | .error e => .error e
  | .ok user => .ok (handler user)

/-- A role-gated route: `authenticateToken`, then `authorizeRole(role)`,
then the handler — the chain on the four transaction endpoints. -/
def runRoleGated {α : Type} (requiredRole : String) (tok : Option Token)
    (handler : Claims → α) : Except AuthError α :=
  match authenticateToken tok with
  | .error e => .error e
  | .ok user =>
    match authorizeRole requiredRole user with
    | .error e => .error e
    | .ok _ => .ok (handler user)

/-- Model of a `bcryptjs` hash: the salt together with a digest that is a
function of password and salt.  The concrete mixing function is an
arbitrary computable stand-in for the bcrypt digest; the proofs use only
that `bcryptCompare` rehashes with the stored salt and compares digests. -/
structure BcryptHash where
  salt : Nat
  digest : Nat
deriving DecidableEq, Repr

/-- Digest function of the bcrypt model. -/
def bcryptDigest (password : String) (salt : Nat) : Nat :=
  password.data.foldl (fun a c => a * 31 + c.toNat) 7 * 2654435761 + salt

/-- `bcrypt.hash(password, rounds)` with the salt drawn by the library:
the salt is made explicit as an argument. -/
def bcryptHash (password : String) (salt : Nat) : BcryptHash :=
  { salt := salt, digest := bcryptDigest password salt }

/-- `bcrypt.compare(password, storedHash)`: rehash with the stored salt
and compare digests. -/
def bcryptCompare (password : String) (h : BcryptHash) : Bool :=
  bcryptDigest password h.salt == h.digest

/-- A registered user of `server.js`: `{ id, email, password, role }`
pushed into the `users` array by the signup handler (`password` holds the
bcrypt hash). -/
structure User where
  id : Nat
  email : String
  password : BcryptHash
  role : String
deriving DecidableEq, Repr

/-- One row of the seeded `assets.inventory` array (`server.js` 31–34). -/
structure InventoryRow where
  base : String
  equipmentType : String
  openingBalance : Int
  closingBalance : Int
  assigned : Int
  expended : Int
  netMovement : Int
deriving DecidableEq, Repr

/-- A JSON scalar value, for caller-supplied transaction payloads. -/
inductive JVal where
  | jnull
  | jbool (b : Bool)
  | jnum (n : Int)
  | jstr (s : String)
deriving DecidableEq, Repr

/-- A JSON object (as parsed by `body-parser`): an association list of
fields with distinct keys kept in insertion order. -/
abbrev JObj : Type := List (String × JVal)

/-- Field lookup in a JSON object. -/
def lookupField (o : JObj) (k : String) : Option JVal :=
  (o.find? (fun p => p.1 == k)).map (fun p => p.2)

/-- JavaScript object-spread-with-override `{...o, k: v}`: if `k` occurs
in `o` its value is replaced in place, otherwise the field is appended. -/
def setField (o : JObj) (k : String) (v : JVal) : JObj :=
  if o.any (fun p => p.1 == k) then
    o.map (fun p => if p.1 == k then (k, v) else p)
  else o ++ [(k, v)]

/-- `{ ...req.body, id: Date.now() }` — the record built by each of the
four transaction handlers (`server.js` 145, 153, 161, 169). -/
def withServerId (body : JObj) (now : Int) : JObj :=
  setField body "id" (.jnum now)

/-- The in-memory state of `server.js`: the `users` array and the five
collections of the `assets` object (lines 28–40). -/
structure ServerState where
  users : List User
  inventory : List InventoryRow
  purchases : List JObj
  transfers : List JObj
  assignments : List JObj
  expenditures : List JObj

/-- The initial state: empty `users`, the four seeded inventory rows,
empty transaction collections (`server.js` 28–40, transcribed). -/
def initialState : ServerState :=
  { users := []
  , inventory :=
      [ { base := "Fort Bravo", equipmentType := "Rifle (M4)"
        , openingBalance := 500, closingBalance := 480
        , assigned := 15, expended := 5, netMovement := -20 }
      , { base := "Fort Alpha", equipmentType := "Grenade (M67)"
        , openingBalance := 1200, closingBalance := 1150
        , assigned := 0, expended := 50, netMovement := -50 }
      , { base := "Naval Base Charlie", equipmentType := "Night Vision Goggles"
        , openingBalance := 150, closingBalance := 150
        , assigned := 0, expended := 0, netMovement := 0 }
      , { base := "Airfield Delta", equipmentType := "Aircraft (F-35)"
        , openingBalance := 20, closingBalance := 20
        , assigned := 0, expended := 0, netMovement := 0 } ]
  , purchases := []
  , transfers := []
  , assignments := []
  , expenditures := [] }

/-- Outcome of the signup handler. -/
inductive SignupResult where
  | conflict                               -- 409
  | created (user : User) (token : Token)  -- 201 with token
deriving DecidableEq, Repr

/-- The `POST /api/auth/signup` handler (`server.js` 84–109): 409 when a
user with the same email exists; otherwise hashes the password, pushes
`{ id: users.length + 1, email, password: hash, role: "logistics" }` and
answers 201 with a signed token.  The bcrypt salt is made explicit. -/
def signup (st : ServerState) (email password : String) (salt : Nat) :
    ServerState × SignupResult :=
  if (st.users.find? (fun u => u.email == email)).isSome then
    (st, .conflict)
  else
    let hashedPassword := bcryptHash password salt
    let newUser : User :=
      { id := st.users.length + 1, email := email
      , password := hashedPassword, role := "logistics" }
    let token := jwtSign
      { id := newUser.id, email := newUser.email, role := newUser.role } jwtKey
    ({ st with users := st.users ++ [newUser] }, .created newUser token)

/-- Outcome of the login handler. -/
inductive LoginResult where
  | notFound            -- 404 User not found.
  | invalidCredentials  -- 401 Invalid credentials.
  | ok (token : Token)  -- 200 with token
deriving DecidableEq, Repr

/-- The `POST /api/auth/login` handler (`server.js` 113–131): 404 when no
user matches the email; 401 when `bcrypt.compare` fails; otherwise 200
with a signed token.  The handler performs no mutation, so the state is
passed through unchanged. -/
def login (st : ServerState) (email password : String) :
    ServerState × LoginResult :=
  match st.users.find? (fun u => u.email == email) with
  | none => (st, .notFound)
  | some user =>
    if bcryptCompare password user.password then
      (st, .ok (jwtSign { id := user.id, email := user.email, role := user.role } jwtKey))
    else
      (st, .invalidCredentials)

/-- The four transaction collections. -/
inductive TxKind where
  | purchase
  | transfer
  | assignment
  | expenditure
deriving DecidableEq, Repr

/-- The collection a transaction kind is stored in. -/
def getCol (st : ServerState) : TxKind → List JObj
  | .purchase => st.purchases
  | .transfer => st.transfers
  | .assignment => st.assignments
  | .expenditure => st.expenditures

/-- Replace the collection of one transaction kind. -/
def setCol (st : ServerState) (k : TxKind) (c : List JObj) : ServerState :=
  match k with
  | .purchase => { st with purchases := c }
  | .transfer => { st with transfers := c }
  | .assignment => { st with assignments := c }
  | .expenditure => { st with expenditures := c }

/-- The common body of the four transaction handlers (`server.js`
144–172): build `{ ...req.body, id: Date.now() }`, push it onto the
collection, answer 201 with the stored record.  `Date.now()` is made
explicit as `now`. -/
def recordTx (st : ServerState) (k : TxKind) (body : JObj) (now : Int) :
    ServerState × JObj :=
  let newRecord := withServerId body now
  (setCol st k (getCol st k ++ [newRecord]), newRecord)

/-- The `GET /api/assets/inventory` handler (`server.js` 137–140):
returns the full inventory collection. -/
def readInventory (st : ServerState) : List InventoryRow :=
  st.inventory

/-- All records of all four transaction collections. -/
def allTxRecords (st : ServerState) : List JObj :=
  st.purchases ++ st.transfers ++ st.assignments ++ st.expenditures

/-- One state-mutating request against the `server.js` state (the
inventory read is included as the identity it is). -/
inductive Op where
  | signup (email password : String) (salt : Nat)
  | login (email password : String)
  | tx (k : TxKind) (body : JObj) (now : Int)
deriving Repr

/-- Apply one operation to the state. -/
def applyOp (st : ServerState) : Op → ServerState
  | .signup e p s => (signup st e p s).1
  | .login e p => (login st e p).1
  | .tx k b n => (recordTx st k b n).1

/-- Apply a sequence of operations from left to right. -/
def applyOps (st : ServerState) (ops : List Op) : ServerState :=
  ops.foldl applyOp st

/-! ## The persistent (Mongoose) variant -/

/-- The whitespace-trimming setter applied by the schema's `trim: true`
(model of JavaScript string trimming, via the character list). -/
def trimS (s : String) : String :=
  ⟨((s.data.dropWhile Char.isWhitespace).reverse.dropWhile Char.isWhitespace).reverse⟩

/-- The enumerated `status` values of the `assetSchema`. -/
def statusValues : List String :=
  ["operational", "maintenance", "deployed", "decommissioned"]

/-- A stored asset document of the persistent variant: the fields of
`assetSchema` plus the store-generated identifier. -/
structure AssetDoc where
  id : Nat
  name : String
  type : String
  status : String
  location : String
  description : Option String
  createdAt : Nat
deriving DecidableEq, Repr

/-- The request body of `POST /api/assets`: each schema field may be
present or absent. -/
structure AssetInput where
  name : Option String
  type : Option String
  status : Option String
  location : Option String
  description : Option String
deriving DecidableEq, Repr

/-- Mongoose `required: true` with `trim: true` on a `String` path: the
value must be present and non-empty after trimming. -/
def requiredStringOk (f : Option String) : Bool :=
  match f with
  | none => false
  | some s => trimS s != ""

/-- Validation performed by `newAsset.save()` against `assetSchema`:
name/type/status/location required and non-empty after trimming, and the
trimmed status must be one of the enumerated values. -/
def validateCreate (b : AssetInput) : Bool :=
  requiredStringOk b.name && requiredStringOk b.type &&
  requiredStringOk b.status && requiredStringOk b.location &&
  (match b.status with
   | some s => statusValues.contains (trimS s)
   | none => false)

/-- The document the create handler builds from the request body,
`new Asset({ name, type, status, location, description })` with the
schema's trim setters applied and the generated id and creation date. -/
def buildAssetDoc (b : AssetInput) (newId now : Nat) : AssetDoc :=
  { id := newId
  , name := trimS (b.name.getD "")
  , type := trimS (b.type.getD "")
  , status := trimS (b.status.getD "")
  , location := trimS (b.location.getD "")
  , description := b.description.map trimS
  , createdAt := now }

/-- The `POST /api/assets` handler (persistent variant, lines 119–136):
build the document from the body fields (trim setters applied), save it —
201 with the saved document on success, 400 on a validation error with
nothing inserted.  The store-generated id and `Date.now()` are explicit
arguments. -/
def createAsset (store : List AssetDoc) (b : AssetInput) (newId now : Nat) :
    List AssetDoc × Option AssetDoc :=
  if validateCreate b then
    (store ++ [buildAssetDoc b newId now], some (buildAssetDoc b newId now))
  else
    (store, none)

/-- `Asset.findById(id)`: the document with the given id, if any. -/
def findById (store : List AssetDoc) (i : Nat) : Option AssetDoc :=
  store.find? (fun a => a.id == i)

/-- The `GET /api/assets/:id` handler (lines 106–116): 404 `Asset not
found` when `findById` yields nothing, otherwise the document. -/
def getAsset (store : List AssetDoc) (i : Nat) : Option AssetDoc :=
  findById store i

/-- A partial update body for `PUT /api/assets/:id`: each schema field
may be supplied or omitted. -/
structure AssetUpdate where
  name : Option String
  type : Option String
  status : Option String
  location : Option String
  description : Option String
deriving DecidableEq, Repr

/-- Merge the supplied fields of an update into a stored document (trim
setters applied; omitted fields keep their stored values). -/
def applyPatch (d : AssetDoc) (u : AssetUpdate) : AssetDoc :=
  { d with
    name := (u.name.map trimS).getD d.name
  , type := (u.type.map trimS).getD d.type
  , status := (u.status.map trimS).getD d.status
  , location := (u.location.map trimS).getD d.location
  , description := (u.description.map trimS).map some |>.getD d.description }

/-- `runValidators: true` on an update: each supplied string path is
re-validated (required non-empty after trimming; trimmed status in the
enumeration).  Omitted paths are not validated. -/
def validateUpdate (u : AssetUpdate) : Bool :=
  (match u.name with | none => true | some s => trimS s != "") &&
  (match u.type with | none => true | some s => trimS s != "") &&
  (match u.status with
   | none => true
   | some s => trimS s != "" && statusValues.contains (trimS s)) &&
  (match u.location with | none => true | some s => trimS s != "")

/-- Outcome of an update or delete in the persistent variant. -/
inductive CrudOutcome (α : Type) where
  | notFound              -- 404
  | validationError       -- 400
  | ok (a : α)            -- 200
deriving DecidableEq, Repr

/-- The `PUT /api/assets/:id` handler (lines 139–154), with
`Asset.findByIdAndUpdate(id, body, { new: true, runValidators: true })`
modelled on the store: 404 when no document matches the id; 400 when a
supplied field fails re-validation (store unchanged); otherwise the
matching document is replaced by the partial merge and returned. -/
def updateAsset (store : List AssetDoc) (i : Nat) (u : AssetUpdate) :
    List AssetDoc × CrudOutcome AssetDoc :=
  match findById store i with
  | none => (store, .notFound)
  | some d =>
    if validateUpdate u then
      (store.map (fun a => if a.id == i then applyPatch a u else a),
       .ok (applyPatch d u))
    else
      (store, .validationError)

/-- The `DELETE /api/assets/:id` handler (lines 157–168), with
`Asset.findByIdAndDelete(id)` modelled on the store: 404 when no document
matches, otherwise the matching document is removed and the handler
confirms with `Asset successfully deleted`. -/
def deleteAsset (store : List AssetDoc) (i : Nat) :
    List AssetDoc × CrudOutcome Unit :=
  match findById store i with
  | none => (store, .notFound)
  | some _ => (store.filter (fun a => a.id != i), .ok ())

/-! ## Helper lemmas -/

/-- The login handler never mutates the state. -/
theorem login_fst (st : ServerState) (email password : String) :
    (login st email password).1 = st := by
  unfold login
  split
  · rfl
  · split <;> rfl

/-- The signup handler never touches the inventory. -/
theorem signup_inventory (st : ServerState) (e p : String) (s : Nat) :
    ((signup st e p s).1).inventory = st.inventory := by
  unfold signup
  split <;> rfl

/-- Recording a transaction never touches the inventory. -/
theorem recordTx_inventory (st : ServerState) (k : TxKind) (b : JObj) (n : Int) :
    ((recordTx st k b n).1).inventory = st.inventory := by
  cases k <;> rfl

/-- No operation touches the inventory. -/
theorem applyOp_inventory (st : ServerState) (op : Op) :
    (applyOp st op).inventory = st.inventory := by
  cases op with
  | signup e p s => exact signup_inventory st e p s
  | login e p => exact congrArg ServerState.inventory (login_fst st e p)
  | tx k b n => exact recordTx_inventory st k b n

/-! ## Claims about the middleware chain -/

/-- C1: a request with no bearer token fails `Unauthenticated` and the
handler is never invoked; a token whose signature check fails or whose
claims cannot be decoded (undecodable and expired tokens alike, with the
same error) fails `InvalidToken` and the handler is never invoked; on
success the handler receives exactly the claims embedded in the token,
with no lookup in the credential store. -/
theorem authPipeline_spec {α : Type} (tok : Option Token) (handler : Claims → α) :
    (tok = none → runProtected tok handler = .error .unauthenticated) ∧
    (∀ t, tok = some t → jwtVerify t jwtKey = none →
      runProtected tok handler = .error .invalidToken) ∧
    (∀ c, runProtected (some Token.garbage) handler = .error .invalidToken ∧
      runProtected (some (Token.signed c jwtKey true)) handler
        = .error .invalidToken) ∧
    (∀ t c, tok = some t → jwtVerify t jwtKey = some c →
      runProtected tok handler = .ok (handler c)) := by
  refine ⟨?_, ?_, ?_, ?_⟩
  · rintro rfl
    rfl
  · rintro t rfl hv
    simp [runProtected, authenticateToken, hv]
  · intro c
    exact ⟨rfl, by simp [runProtected, authenticateToken, jwtVerify]⟩
  · rintro t c rfl hv
    simp [runProtected, authenticateToken, hv]

/-- Witness for C1: three concrete requests — no token, an undecodable
token, a validly signed token. -/
theorem authPipeline_spec_witness :
    runProtected none (fun c : Claims => c.role) = .error .unauthenticated ∧
    runProtected (some Token.garbage) (fun c : Claims => c.role)
      = .error .invalidToken ∧
    runProtected (some (jwtSign ⟨7, "a@x.com", "logistics"⟩ jwtKey))
      (fun c : Claims => c.role) = .ok "logistics" := by
  refine ⟨(authPipeline_spec none (fun c : Claims => c.role)).1 rfl, ?_, ?_⟩
  · exact (authPipeline_spec (some Token.garbage)
      (fun c : Claims => c.role)).2.1 Token.garbage rfl rfl
  · exact (authPipeline_spec
      (some (jwtSign ⟨7, "a@x.com", "logistics"⟩ jwtKey))
      (fun c : Claims => c.role)).2.2.2
      (jwtSign ⟨7, "a@x.com", "logistics"⟩ jwtKey)
      ⟨7, "a@x.com", "logistics"⟩ rfl (by decide)

/-- C2: on every role-gated endpoint, an identity whose role is not
exactly the required string is rejected with `Forbidden` and the handler
is never invoked (no role hierarchy or multi-role acceptance); an exactly
matching role passes the gate and the handler runs. -/
theorem roleGate_spec {α : Type} (requiredRole : String) (u : Claims)
    (handler : Claims → α) :
    (u.role ≠ requiredRole →
      authorizeRole requiredRole u = .error .forbidden ∧
      ∀ t, jwtVerify t jwtKey = some u →
        runRoleGated requiredRole (some t) handler = .error .forbidden) ∧
    (u.role = requiredRole →
      authorizeRole requiredRole u = .ok () ∧
      ∀ t, jwtVerify t jwtKey = some u →
        runRoleGated requiredRole (some t) handler = .ok (handler u)) := by
  constructor
  · intro hne
    have hgate : authorizeRole requiredRole u = .error .forbidden := by
      simp [authorizeRole, hne]
    refine ⟨hgate, fun t hv => ?_⟩
    simp [runRoleGated, authenticateToken, hv, hgate]
  · intro heq
    have hgate : authorizeRole requiredRole u = .ok () := by
      simp [authorizeRole, heq]
    refine ⟨hgate, fun t hv => ?_⟩
    simp [runRoleGated, authenticateToken, hv, hgate]

/-- Witness for C2: the role `"admin"` is rejected by the `"logistics"`
gate; the exact role `"logistics"` passes. -/
theorem roleGate_spec_witness :
    authorizeRole "logistics" ⟨1, "a@x.com", "admin"⟩ = .error .forbidden ∧
    runRoleGated "logistics" (some (jwtSign ⟨1, "a@x.com", "admin"⟩ jwtKey))
      (fun c : Claims => c.email) = .error .forbidden ∧
    runRoleGated "logistics" (some (jwtSign ⟨2, "b@x.com", "logistics"⟩ jwtKey))
      (fun c : Claims => c.email) = .ok "b@x.com" := by
  have h1 := (roleGate_spec "logistics" ⟨1, "a@x.com", "admin"⟩
    (fun c : Claims => c.email)).1 (by decide)
  have h2 := (roleGate_spec "logistics" ⟨2, "b@x.com", "logistics"⟩
    (fun c : Claims => c.email)).2 (by decide)
  exact ⟨h1.1, h1.2 _ (by decide), h2.2 _ (by decide)⟩

/-- C7: every authenticated inventory read returns the full current
inventory collection, and after any sequence of signup, login and
transaction-creation operations from the initial state the inventory is
still exactly the 4 seeded snapshot rows. -/
theorem inventoryFrame_spec (ops : List Op) :
    (∀ st : ServerState, readInventory st = st.inventory) ∧
    readInventory (applyOps initialState ops) = initialState.inventory ∧
    (readInventory (applyOps initialState ops)).length = 4 := by
  have key : ∀ (l : List Op) (st : ServerState),
      (applyOps st l).inventory = st.inventory := by
    intro l
    induction l with
    | nil => intro st; rfl
    | cons op l ih =>
      intro st
      show (applyOps (applyOp st op) l).inventory = st.inventory
      rw [ih (applyOp st op), applyOp_inventory]
  refine ⟨fun st => rfl, key ops initialState, ?_⟩
  rw [readInventory, key ops initialState]
  rfl

/-! ## Claims about the credential store -/

/-- On a fresh email the signup handler appends exactly one new user with
the salted hash of the secret, role `"logistics"` and id
`users.length + 1`, and issues a token over those claims. -/
theorem signup_fresh_eq (st : ServerState) (email password : String) (salt : Nat)
    (hfresh : ∀ u ∈ st.users, u.email ≠ email) :
    signup st email password salt
      = ({ st with users := st.users ++
            [{ id := st.users.length + 1, email := email
             , password := bcryptHash password salt, role := "logistics" }] },
         .created
           { id := st.users.length + 1, email := email
           , password := bcryptHash password salt, role := "logistics" }
           (jwtSign { id := st.users.length + 1, email := email
                    , role := "logistics" } jwtKey)) := by
  have hfind : st.users.find? (fun u => u.email == email) = none := by
    rw [List.find?_eq_none]
    intro u hu
    simp [hfresh u hu]
  simp [signup, hfind]

/-- All states reachable from the empty user store have ids `1..n` in
order: the id assigned at creation is `users.length + 1`. -/
def usersCanonical (l : List User) : Prop :=
  l.map (fun u => u.id) = (List.range l.length).map (fun i => i + 1)

/-- C3: signup with an already-registered email (case-sensitive exact
match) fails with `Conflict` and leaves the store unchanged; otherwise
exactly one identity is appended, storing only the salted slow hash of
the secret (never the plaintext), with role `"logistics"` unconditionally
and an id unique among all stored identities. -/
theorem signup_spec (st : ServerState) (email password : String) (salt : Nat) :
    ((∃ u ∈ st.users, u.email = email) →
      signup st email password salt = (st, .conflict)) ∧
    ((∀ u ∈ st.users, u.email ≠ email) →
      signup st email password salt
        = ({ st with users := st.users ++
              [{ id := st.users.length + 1, email := email
               , password := bcryptHash password salt, role := "logistics" }] },
           .created
             { id := st.users.length + 1, email := email
             , password := bcryptHash password salt, role := "logistics" }
             (jwtSign { id := st.users.length + 1, email := email
                      , role := "logistics" } jwtKey)) ∧
      (usersCanonical st.users →
        st.users.length + 1 ∉ st.users.map (fun u => u.id))) := by
  constructor
  · intro hex
    obtain ⟨u, hu, he⟩ := hex
    have hfind : (st.users.find? (fun u => u.email == email)).isSome :=
      List.find?_isSome.mpr ⟨u, hu, by simp [he]⟩
    simp [signup, hfind]
  · intro hfresh
    refine ⟨signup_fresh_eq st email password salt hfresh, ?_⟩
    intro hcanon hmem
    rw [hcanon] at hmem
    simp only [List.mem_map, List.mem_range] at hmem
    obtain ⟨i, hi, hieq⟩ := hmem
    omega

/-- Witness for C3: signing up a fresh email on the initial state. -/
theorem signup_spec_witness :
    (∀ u ∈ initialState.users, u.email ≠ "a@x.com") ∧
    (signup initialState "a@x.com" "pw" 5
       = ({ initialState with users := initialState.users ++
             [{ id := initialState.users.length + 1, email := "a@x.com"
              , password := bcryptHash "pw" 5, role := "logistics" }] },
          .created
            { id := initialState.users.length + 1, email := "a@x.com"
            , password := bcryptHash "pw" 5, role := "logistics" }
            (jwtSign { id := initialState.users.length + 1, email := "a@x.com"
                     , role := "logistics" } jwtKey)) ∧
     (usersCanonical initialState.users →
       initialState.users.length + 1 ∉ initialState.users.map (fun u => u.id))) :=
  ⟨by simp [initialState],
   (signup_spec initialState "a@x.com" "pw" 5).2 (by simp [initialState])⟩

/-- A user fixture: the identity created by signup for `a@x.com`. -/
def testUser : User :=
  { id := 1, email := "a@x.com", password := bcryptHash "pw" 5, role := "logistics" }

/-- A state fixture: the initial state with `testUser` registered. -/
def testState : ServerState :=
  { initialState with users := [testUser] }

/-- C4: login with an email matching no stored identity fails `NotFound`;
login with a matching email but a failing hash comparison fails
`InvalidCredential`; in both cases no token is issued and the credential
store is unchanged. -/
theorem login_spec (st : ServerState) (email password : String) :
    ((∀ u ∈ st.users, u.email ≠ email) →
      login st email password = (st, .notFound)) ∧
    (∀ u, st.users.find? (fun v => v.email == email) = some u →
      bcryptCompare password u.password = false →
      login st email password = (st, .invalidCredentials)) ∧
    (login st email password).1 = st := by
  refine ⟨?_, ?_, login_fst st email password⟩
  · intro hfresh
    have hfind : st.users.find? (fun u => u.email == email) = none := by
      rw [List.find?_eq_none]
      intro u hu
      simp [hfresh u hu]
    simp [login, hfind]
  · intro u hu hcmp
    simp [login, hu, hcmp]

/-- Witness for C4: an unknown email and a wrong secret against the
fixture state. -/
theorem login_spec_witness :
    login testState "b@x.com" "pw" = (testState, .notFound) ∧
    login testState "a@x.com" "wrong" = (testState, .invalidCredentials) := by
  refine ⟨(login_spec testState "b@x.com" "pw").1 (by decide),
    (login_spec testState "a@x.com" "wrong").2.1 testUser (by decide) (by decide)⟩

/-- C5: for every valid signup payload with a fresh email, the signup
succeeds and a subsequent login with the same email and secret succeeds,
yielding a token whose decoded role claim equals the role stored for the
identity. -/
theorem signupLoginRoundtrip_spec (st : ServerState) (email password : String)
    (salt : Nat) (hfresh : ∀ u ∈ st.users, u.email ≠ email) :
    (signup st email password salt).2
      = .created
          { id := st.users.length + 1, email := email
          , password := bcryptHash password salt, role := "logistics" }
          (jwtSign { id := st.users.length + 1, email := email
                   , role := "logistics" } jwtKey) ∧
    login (signup st email password salt).1 email password
      = ((signup st email password salt).1,
         .ok (jwtSign { id := st.users.length + 1, email := email
                      , role := "logistics" } jwtKey)) ∧
    jwtVerify (jwtSign { id := st.users.length + 1, email := email
                       , role := "logistics" } jwtKey) jwtKey
      = some { id := st.users.length + 1, email := email, role := "logistics" } ∧
    ({ id := st.users.length + 1, email := email, role := "logistics" } : Claims).role
      = ({ id := st.users.length + 1, email := email
         , password := bcryptHash password salt, role := "logistics" } : User).role := by
  have heq := signup_fresh_eq st email password salt hfresh
  have hfind : st.users.find? (fun u => u.email == email) = none := by
    rw [List.find?_eq_none]
    intro u hu
    simp [hfresh u hu]
  refine ⟨by rw [heq], ?_, by simp [jwtVerify, jwtSign], rfl⟩
  rw [heq]
  unfold login
  rw [List.find?_append, hfind, Option.none_or]
  simp [bcryptCompare, bcryptHash]

/-- Witness for C5: signup then login for `a@x.com` on the initial
state. -/
theorem signupLoginRoundtrip_spec_witness :
    login (signup initialState "a@x.com" "pw" 5).1 "a@x.com" "pw"
      = ((signup initialState "a@x.com" "pw" 5).1,
         .ok (jwtSign { id := 1, email := "a@x.com", role := "logistics" } jwtKey)) :=
  (signupLoginRoundtrip_spec initialState "a@x.com" "pw" 5 (by simp [initialState])).2.1

/-! ## Claims about the transaction handlers -/

/-- Overriding one key of an association list leaves lookups of every
other key unchanged. -/
theorem lookupField_mapOverride (o : JObj) (k key : String) (v : JVal)
    (hne : key ≠ k) :
    lookupField (o.map (fun q => if q.1 == k then (k, v) else q)) key
      = lookupField o key := by
  induction o with
  | nil => rfl
  | cons q o ih =>
    unfold lookupField at ih ⊢
    by_cases hq : q.1 = k
    · rw [List.map_cons, if_pos (by simp [hq])]
      rw [List.find?_cons_of_neg _ (by simp [Ne.symm hne]),
          List.find?_cons_of_neg _ (by simp [hq, Ne.symm hne])]
      exact ih
    · rw [List.map_cons, if_neg (by simp [hq])]
      by_cases hqk : q.1 = key
      · rw [List.find?_cons_of_pos _ (by simp [hqk]),
            List.find?_cons_of_pos _ (by simp [hqk])]
      · rw [List.find?_cons_of_neg _ (by simp [hqk]),
            List.find?_cons_of_neg _ (by simp [hqk])]
        exact ih

/-- If some key of the association list matches, overriding it makes the
first match the overridden pair. -/
theorem find?_mapOverride_self (o : JObj) (k : String) (v : JVal)
    (ho : o.any (fun q => q.1 == k) = true) :
    (o.map (fun q => if q.1 == k then (k, v) else q)).find?
      (fun p => p.1 == k) = some (k, v) := by
  induction o with
  | nil => simp at ho
  | cons q o ih =>
    by_cases hq : q.1 = k
    · simp [hq]
    · have ho' : o.any (fun q => q.1 == k) = true := by
        simpa [List.any_cons, hq] using ho
      rw [List.map_cons, if_neg (by simp [hq] : ¬ ((q.1 == k) = true)),
          List.find?_cons_of_neg _ (by simp [hq])]
      exact ih ho'

/-- The overridden key reads back the overriding value. -/
theorem lookupField_setField_self (o : JObj) (k : String) (v : JVal) :
    lookupField (setField o k v) k = some v := by
  unfold setField
  by_cases ho : o.any (fun p => p.1 == k) = true
  · rw [if_pos ho]
    unfold lookupField
    rw [find?_mapOverride_self o k v ho]
    rfl
  · rw [if_neg ho]
    unfold lookupField
    rw [List.find?_append]
    have h1 : o.find? (fun p => p.1 == k) = none := by
      rw [List.find?_eq_none]
      intro p hp hpk
      exact ho (List.any_eq_true.mpr ⟨p, hp, hpk⟩)
    rw [h1]
    simp

/-- Every other key is unaffected by the override. -/
theorem lookupField_setField_ne (o : JObj) (k key : String) (v : JVal)
    (hne : key ≠ k) :
    lookupField (setField o k v) key = lookupField o key := by
  unfold setField
  by_cases ho : o.any (fun p => p.1 == k) = true
  · rw [if_pos ho]
    exact lookupField_mapOverride o k key v hne
  · rw [if_neg ho]
    unfold lookupField
    rw [List.find?_append]
    have h2 : [(k, v)].find? (fun p => p.1 == key) = none := by
      simp [Ne.symm hne]
    rw [h2, Option.or_none]

/-- Reading a collection back after replacing it. -/
theorem getCol_setCol_self (st : ServerState) (k : TxKind) (c : List JObj) :
    getCol (setCol st k c) k = c := by
  cases k <;> rfl

/-- All ids already stored in the transaction collections are below the
current clock value — the invariant a strictly monotonic `Date.now()`
maintains between requests. -/
def txIdBelow (st : ServerState) (now : Int) : Prop :=
  ∀ r ∈ allTxRecords st, ∀ m : Int, lookupField r "id" = some (.jnum m) → m < now

/-- C6: every authorized transaction creation returns the stored record,
which carries all submitted fields plus the server-assigned id; the id is
distinct from the id of every record already in any transaction
collection; the target collection grows by exactly one with the new
record appended at the end and every prior entry unchanged. -/
theorem recordTx_spec (st : ServerState) (k : TxKind) (body : JObj) (now : Int)
    (hclock : txIdBelow st now) :
    (recordTx st k body now).2 = withServerId body now ∧
    getCol (recordTx st k body now).1 k
      = getCol st k ++ [(recordTx st k body now).2] ∧
    (getCol (recordTx st k body now).1 k).length = (getCol st k).length + 1 ∧
    lookupField (recordTx st k body now).2 "id" = some (.jnum now) ∧
    (∀ key, key ≠ "id" →
      lookupField (recordTx st k body now).2 key = lookupField body key) ∧
    (∀ r ∈ allTxRecords st, lookupField r "id" ≠ some (.jnum now)) ∧
    (∀ p ∈ body, (lookupField (recordTx st k body now).2 p.1).isSome) := by
  have hcol : getCol (recordTx st k body now).1 k
      = getCol st k ++ [(recordTx st k body now).2] :=
    getCol_setCol_self st k (getCol st k ++ [withServerId body now])
  refine ⟨rfl, hcol, ?_, ?_, ?_, ?_, ?_⟩
  · rw [hcol, List.length_append]
    rfl
  · exact lookupField_setField_self body "id" (.jnum now)
  · exact fun key hk => lookupField_setField_ne body "id" key (.jnum now) hk
  · intro r hr heq
    exact absurd (hclock r hr now heq) (lt_irrefl now)
  · intro p hp
    by_cases hk : p.1 = "id"
    · rw [hk]
      show (lookupField (withServerId body now) "id").isSome = true
      unfold withServerId
      rw [lookupField_setField_self body "id" (.jnum now)]
      rfl
    · show (lookupField (withServerId body now) p.1).isSome = true
      unfold withServerId
      rw [lookupField_setField_ne body "id" p.1 (.jnum now) hk]
      have hfound : (body.find? (fun q => q.1 == p.1)).isSome :=
        List.find?_isSome.mpr ⟨p, hp, by simp⟩
      unfold lookupField
      rw [Option.isSome_map']
      exact hfound

/-- Witness for C6: a purchase `{item:"rifle", qty:10}` recorded on the
initial state at clock value 5. -/
theorem recordTx_spec_witness :
    lookupField (recordTx initialState TxKind.purchase
        [("item", JVal.jstr "rifle"), ("qty", JVal.jnum 10)] 5).2 "id"
      = some (JVal.jnum 5) ∧
    getCol (recordTx initialState TxKind.purchase
        [("item", JVal.jstr "rifle"), ("qty", JVal.jnum 10)] 5).1 TxKind.purchase
      = [(recordTx initialState TxKind.purchase
          [("item", JVal.jstr "rifle"), ("qty", JVal.jnum 10)] 5).2] := by
  have h := recordTx_spec initialState TxKind.purchase
    [("item", JVal.jstr "rifle"), ("qty", JVal.jnum 10)] 5
    (by intro r hr; simp [allTxRecords, initialState] at hr)
  exact ⟨h.2.2.2.1, h.2.1⟩

/-- C10: when the caller-supplied payload itself contains an `"id"`
field, the stored and returned record carries the server-assigned id —
the server-generated id overwrites the caller-supplied value. -/
theorem serverIdOverwrite_spec (st : ServerState) (k : TxKind) (body : JObj)
    (now : Int) (v : JVal) (_hv : lookupField body "id" = some v) :
    (recordTx st k body now).2 = withServerId body now ∧
    lookupField (recordTx st k body now).2 "id" = some (.jnum now) ∧
    getCol (recordTx st k body now).1 k
      = getCol st k ++ [(recordTx st k body now).2] := by
  exact ⟨rfl, lookupField_setField_self body "id" (.jnum now),
    getCol_setCol_self st k (getCol st k ++ [withServerId body now])⟩

/-- Witness for C10: a transfer whose payload claims `id: 999` is stored
with the server-assigned id 5 instead. -/
theorem serverIdOverwrite_spec_witness :
    lookupField (recordTx initialState TxKind.transfer
        [("id", JVal.jnum 999), ("item", JVal.jstr "rifle")] 5).2 "id"
      = some (JVal.jnum 5) :=
  (serverIdOverwrite_spec initialState TxKind.transfer
      [("id", JVal.jnum 999), ("item", JVal.jstr "rifle")] 5 (JVal.jnum 999)
      (by decide)).2.1

/-! ## Claims about the persistent variant -/

/-- The store has pairwise-distinct document ids (MongoDB `_id`s are
unique). -/
def idsNodup (store : List AssetDoc) : Prop :=
  (store.map (fun a => a.id)).Nodup

/-- Deleting by a present id removes exactly one document. -/
theorem filter_ne_length (store : List AssetDoc) (i : Nat) (d : AssetDoc)
    (hfind : findById store i = some d) (hnd : idsNodup store) :
    (store.filter (fun a => a.id != i)).length + 1 = store.length := by
  induction store with
  | nil => simp [findById] at hfind
  | cons a store ih =>
    rw [idsNodup, List.map_cons, List.nodup_cons] at hnd
    obtain ⟨ha, hnd'⟩ := hnd
    by_cases hai : a.id = i
    · have hall : store.filter (fun b => b.id != i) = store := by
        rw [List.filter_eq_self]
        intro b hb
        have hbne : b.id ≠ i := by
          intro hbi
          exact ha (List.mem_map.mpr ⟨b, hb, by rw [hbi, hai]⟩)
        simp [hbne]
      simp [List.filter_cons, hai, hall]
    · have hfind' : findById store i = some d := by
        rw [findById, List.find?_cons_of_neg _ (by simp [hai])] at hfind
        exact hfind
      have hlen := ih hfind' hnd'
      simp only [List.filter_cons, List.length_cons]
      rw [if_pos (by simp [hai])]
      simp only [List.length_cons]
      omega

/-- C8: in the persistent variant, read-by-id, update and delete with an
id matching no stored record all fail with `NotFound` and leave the
collection unchanged; with a matching id, delete removes that record and
confirms, and update applies a partial merge of the supplied fields and
re-validates enumerated fields. -/
theorem assetCrud_spec (store : List AssetDoc) (i : Nat) (u : AssetUpdate) :
    (findById store i = none →
      getAsset store i = none ∧
      updateAsset store i u = (store, .notFound) ∧
      deleteAsset store i = (store, .notFound)) ∧
    (∀ d, findById store i = some d →
      d.id = i ∧
      getAsset store i = some d ∧
      (deleteAsset store i).2 = .ok () ∧
      (∀ a ∈ (deleteAsset store i).1, a.id ≠ i) ∧
      (∀ a ∈ store, a.id ≠ i → a ∈ (deleteAsset store i).1) ∧
      (idsNodup store → ((deleteAsset store i).1).length + 1 = store.length) ∧
      (validateUpdate u = true →
        updateAsset store i u
          = (store.map (fun a => if a.id == i then applyPatch a u else a),
             .ok (applyPatch d u))) ∧
      (∀ s, u.status = some s → validateUpdate u = true →
        trimS s ≠ "" ∧ trimS s ∈ statusValues)) := by
  constructor
  · intro hnone
    exact ⟨hnone, by simp [updateAsset, hnone], by simp [deleteAsset, hnone]⟩
  · intro d hfind
    have hdel1 : (deleteAsset store i).1 = store.filter (fun a => a.id != i) := by
      simp [deleteAsset, hfind]
    have hid : d.id = i := by
      have hpd := List.find?_some hfind
      simpa using hpd
    refine ⟨hid, hfind, by simp [deleteAsset, hfind], ?_, ?_, ?_, ?_, ?_⟩
    · intro a ha
      rw [hdel1] at ha
      have hpa := (List.mem_filter.mp ha).2
      simpa using hpa
    · intro a ha hne
      rw [hdel1]
      exact List.mem_filter.mpr ⟨ha, by simpa using hne⟩
    · intro hnd
      rw [hdel1]
      exact filter_ne_length store i d hfind hnd
    · intro hval
      simp [updateAsset, hfind, hval]
    · intro s hs hval
      simp only [validateUpdate, hs, Bool.and_eq_true] at hval
      obtain ⟨⟨⟨-, -⟩, h3a, h3b⟩, -⟩ := hval
      exact ⟨by simpa using h3a, by simpa using h3b⟩

/-- An asset-document fixture for the persistent variant. -/
def testAsset : AssetDoc :=
  { id := 1, name := "Tank", type := "vehicle", status := "operational"
  , location := "Base A", description := none, createdAt := 0 }

/-- An update fixture: only the status field is supplied. -/
def testUpdate : AssetUpdate :=
  { name := none, type := none, status := some "deployed"
  , location := none, description := none }

/-- Witness for C8: id 2 is absent from the one-document store, id 1 is
present. -/
theorem assetCrud_spec_witness :
    (getAsset [testAsset] 2 = none ∧
     updateAsset [testAsset] 2 testUpdate = ([testAsset], .notFound) ∧
     deleteAsset [testAsset] 2 = ([testAsset], .notFound)) ∧
    (deleteAsset [testAsset] 1).2 = .ok () ∧
    updateAsset [testAsset] 1 testUpdate
      = ([testAsset].map (fun a => if a.id == 1 then applyPatch a testUpdate else a),
         .ok (applyPatch testAsset testUpdate)) := by
  have h1 := (assetCrud_spec [testAsset] 2 testUpdate).1 (by decide)
  have h2 := (assetCrud_spec [testAsset] 1 testUpdate).2 testAsset (by decide)
  exact ⟨h1, h2.2.2.1, h2.2.2.2.2.2.2.1 (by decide)⟩

/-- If a required trimmed string path validates, the stored (trimmed)
value is non-empty. -/
theorem requiredStringOk_getD (f : Option String)
    (h : requiredStringOk f = true) : (trimS (f.getD "") != "") = true := by
  cases f with
  | none => simp [requiredStringOk] at h
  | some s => simpa [requiredStringOk] using h

/-- The stored-record invariant of the persistent variant: the four
required fields are non-empty (stored values are already trimmed) and
the status is one of the enumerated values. -/
def validAssetDoc (a : AssetDoc) : Bool :=
  a.name != "" && a.type != "" && a.status != "" && a.location != "" &&
  statusValues.contains a.status

/-- C9: an asset-creation request inserts a record only when name, type,
status and location are all present and non-empty after trimming and the
status is one of the enumerated values; otherwise creation fails with a
validation error and nothing is inserted — so every stored asset record
satisfies the invariant. -/
theorem createAsset_spec (store : List AssetDoc) (b : AssetInput)
    (newId now : Nat) :
    (validateCreate b = true →
      createAsset store b newId now
        = (store ++ [buildAssetDoc b newId now], some (buildAssetDoc b newId now)) ∧
      validAssetDoc (buildAssetDoc b newId now) = true) ∧
    (validateCreate b = false →
      createAsset store b newId now = (store, none)) ∧
    (validateCreate b = true ↔
      ((∃ s, b.name = some s ∧ trimS s ≠ "") ∧
       (∃ s, b.type = some s ∧ trimS s ≠ "") ∧
       (∃ s, b.location = some s ∧ trimS s ≠ "") ∧
       (∃ s, b.status = some s ∧ trimS s ≠ "" ∧ trimS s ∈ statusValues))) ∧
    ((∀ a ∈ store, validAssetDoc a = true) →
      ∀ a ∈ (createAsset store b newId now).1, validAssetDoc a = true) := by
  have hbuild : validateCreate b = true →
      validAssetDoc (buildAssetDoc b newId now) = true := by
    intro hval
    simp only [validateCreate, Bool.and_eq_true] at hval
    obtain ⟨⟨⟨⟨hn, ht⟩, hs⟩, hl⟩, hmatch⟩ := hval
    have hstat : statusValues.contains (trimS (b.status.getD "")) = true := by
      cases hbs : b.status with
      | none => rw [hbs] at hmatch; simp at hmatch
      | some s => rw [hbs] at hmatch; simpa [hbs] using hmatch
    simp only [validAssetDoc, buildAssetDoc, Bool.and_eq_true]
    exact ⟨⟨⟨⟨by simpa using requiredStringOk_getD _ hn,
      by simpa using requiredStringOk_getD _ ht⟩,
      by simpa using requiredStringOk_getD _ hs⟩,
      by simpa using requiredStringOk_getD _ hl⟩, hstat⟩
  refine ⟨?_, ?_, ?_, ?_⟩
  · intro hval
    exact ⟨by simp [createAsset, hval], hbuild hval⟩
  · intro hval
    simp [createAsset, hval]
  · rcases b with ⟨bn, bt, bs, bl, bd⟩
    cases bn <;> cases bt <;> cases bs <;> cases bl <;>
      simp [validateCreate, requiredStringOk, Bool.and_eq_true, and_assoc,
        and_comm, and_left_comm]
  · intro hstore a ha
    by_cases hval : validateCreate b = true
    · rw [createAsset, if_pos hval] at ha
      rcases List.mem_append.mp ha with hin | hnew
      · exact hstore a hin
      · rw [List.mem_singleton.mp hnew]
        exact hbuild hval
    · rw [createAsset, if_neg hval] at ha
      exact hstore a ha

/-- A fully valid creation body. -/
def testInputOk : AssetInput :=
  { name := some "F-35"
  , type := some "aircraft"
  , status := some "operational"
  , location := some " Kandahar "
  , description := none }

/-- A creation body whose location is empty after trimming. -/
def testInputBad : AssetInput :=
  { name := some "F-35"
  , type := some "aircraft"
  , status := some "operational"
  , location := some "   "
  , description := none }

/-- Witness for C9: a fully valid body is inserted; a body with an empty
location (after trimming) is rejected. -/
theorem createAsset_spec_witness :
    createAsset [] testInputOk 1 0
      = ([buildAssetDoc testInputOk 1 0], some (buildAssetDoc testInputOk 1 0)) ∧
    createAsset [] testInputBad 1 0 = ([], none) := by
  refine ⟨?_, ?_⟩
  · have h := ((createAsset_spec [] testInputOk 1 0).1 (by decide)).1
    simpa using h
  · exact (createAsset_spec [] testInputBad 1 0).2.1 (by decide)

/-! ## Invariance of the id discipline

The hypotheses of the credential-store and transaction claims hold in
every state the server can reach: ids `1..n` for users (established
here), ids below the clock for transactions (maintained by a strictly
monotonic `Date.now()`). -/

/-- Signup preserves the canonical id numbering of the user store. -/
theorem signup_usersCanonical (st : ServerState) (e p : String) (s : Nat)
    (h : usersCanonical st.users) :
    usersCanonical ((signup st e p s).1).users := by
  unfold signup
  by_cases hfind : (st.users.find? (fun u => u.email == e)).isSome = true
  · rw [if_pos hfind]
    exact h
  · rw [if_neg hfind]
    unfold usersCanonical at h ⊢
    simp only [List.map_append, List.length_append, List.map_cons, List.map_nil,
      List.length_cons, List.length_nil]
    rw [h]
    rw [show st.users.length + (0 + 1) = st.users.length + 1 by omega,
      List.range_succ, List.map_append]
    simp

/-- Recording a transaction does not touch the user store. -/
theorem recordTx_users (st : ServerState) (k : TxKind) (b : JObj) (n : Int) :
    ((recordTx st k b n).1).users = st.users := by
  cases k <;> rfl

/-- Every operation preserves the canonical id numbering. -/
theorem applyOp_usersCanonical (st : ServerState) (op : Op)
    (h : usersCanonical st.users) : usersCanonical (applyOp st op).users := by
  cases op with
  | signup e p s => exact signup_usersCanonical st e p s h
  | login e p => rw [show applyOp st (Op.login e p) = (login st e p).1 from rfl,
      login_fst]; exact h
  | tx k b n => rw [show applyOp st (Op.tx k b n) = (recordTx st k b n).1 from rfl,
      recordTx_users]; exact h

/-- Every state reachable from the initial state numbers its users
`1..n`: the uniqueness hypothesis of the signup claim is an invariant. -/
theorem applyOps_usersCanonical (ops : List Op) :
    usersCanonical (applyOps initialState ops).users := by
  have key : ∀ (l : List Op) (st : ServerState), usersCanonical st.users →
      usersCanonical (applyOps st l).users := by
    intro l
    induction l with
    | nil => intro st h; exact h
    | cons op l ih =>
      intro st h
      exact ih (applyOp st op) (applyOp_usersCanonical st op h)
  exact key ops initialState (by simp [usersCanonical, initialState])
